import Mathlib

/-!
# Verification of `unplugin-deny-imports`

A shallow embedding of the core of the `unplugin-deny-imports` plugin:
the per-build import graph (`record`, `buildTrace`, `invalidate`, `clear`),
the ordered pattern-matching engine (`matchPattern`, `isIgnored`), the
boundary-directive detector (`getDirective`), the diagnostic renderer
(`findImportLine`, `renderTrace`), the resolution hooks of the three
sub-plugins, and the preset construction (`patternMatches`,
`filterPatterns`, `defaultPreset`, `preset`).

External capabilities (micromatch glob matching, JavaScript RegExp
testing, `path.relative`/`path.isAbsolute`, the file system, and the
host bundler's resolver) are modelled as explicit function parameters,
following the specification's treatment of them as opaque collaborators.
JavaScript `Map` objects are modelled as association lists in insertion
order, `Set` objects as lists without duplicates, and string truthiness
is modelled explicitly where the source relies on it.
-/

namespace DenyImports

/-- Execution context: `'client' | 'server'`. -/
inductive Env : Type
  | client
  | server
deriving DecidableEq, Repr

/-- A JavaScript `RegExp` value, identified (as in `presets.ts`) by its
`source` and `flags` strings.  Its `test` behaviour is an opaque capability. -/
structure RegexPat : Type where
  source : String
  flags : String
deriving DecidableEq, Repr

/-- `Pattern = string | RegExp`. -/
inductive Pattern : Type
  | str (s : String)
  | regex (r : RegexPat)
deriving DecidableEq, Repr

/-- `interface ImportEdge { importer: string; specifier: string }` -/
structure ImportEdge : Type where
  importer : String
  specifier : String
deriving DecidableEq, Repr

/-- `type TraceEntry = { file: string; specifier?: string }` -/
structure TraceEntry : Type where
  file : String
  specifier : Option String := none
deriving DecidableEq, Repr

/-- `type Trace = TraceEntry[]` -/
abbrev Trace : Type := List TraceEntry

/-- The import graph `Map<string, ImportEdge[]>`, modelled as an
association list in `Map` insertion order (keys are unique by construction). -/
abbrev Graph : Type := List (String × List ImportEdge)

/-- `graph.get(id)`, where a missing key behaves like an empty edge list
(the source only ever asks for `edges?.length`/`edges[0]`). -/
def lookupEdges (g : Graph) (id : String) : List ImportEdge :=
  match g.find? (fun p => p.1 == id) with
  | some p => p.2
  | none => []

/-- `graph.has(id)` -/
def hasKey (g : Graph) (id : String) : Bool :=
  (g.find? (fun p => p.1 == id)).isSome

/-- The edge push inside `record`: append `{importer, specifier}` unless an
edge with the same `importer` is already present. -/
def pushEdge (edges : List ImportEdge) (importer specifier : String) : List ImportEdge :=
  if edges.any (fun e => e.importer == importer) then edges
  else edges ++ [{ importer := importer, specifier := specifier }]

/-- `record(id, importer, specifier)`: ensure a (possibly empty) edge list
exists for `id` (a fresh key is appended at the end, as in `Map.set`), then
push the edge unless this importer is already recorded for this target. -/
def record (g : Graph) (id importer specifier : String) : Graph :=
  if hasKey g id then
    g.map (fun p => if p.1 == id then (p.1, pushEdge p.2 importer specifier) else p)
  else
    g ++ [(id, pushEdge [] importer specifier)]

/-- `clear()` -/
def clear : Graph := []

/-- `invalidate(file)`: drop `file` as a target, then strip every edge whose
importer is `file` (`Map.set` on an existing key keeps its position). -/
def invalidate (g : Graph) (file : String) : Graph :=
  (g.filter (fun p => !(p.1 == file))).map
    (fun p => (p.1, p.2.filter (fun e => !(e.importer == file))))

/-- `graph.size` -/
def graphSize (g : Graph) : Nat := g.length

/-- The edge-list invariant: at most one edge per distinct importer is
retained per target. -/
def graphWF (g : Graph) : Prop :=
  ∀ p ∈ g, p.2.Pairwise (fun a b => a.importer ≠ b.importer)

/-- The `while` loop of `buildTrace`.  The loop runs while `current` is
truthy (a non-empty string), unvisited, and the trace is shorter than
`maxDepth`; each iteration marks `current` visited, stops if it has no
recorded edges, and otherwise prepends the first recorded edge's importer
and continues from it. -/
def buildTraceLoop (g : Graph) (maxDepth : Nat) (current : String)
    (visited : List String) (trace : Trace) : Trace :=
  if h : current ≠ "" ∧ current ∉ visited ∧ trace.length < maxDepth then
    match lookupEdges g current with
    | [] => trace
    | edge :: _ =>
        buildTraceLoop g maxDepth edge.importer (current :: visited)
          ({ file := edge.importer, specifier := some edge.specifier } :: trace)
  else trace
termination_by maxDepth - trace.length
decreasing_by
  simp only [List.length_cons]
  omega

/-- `buildTrace(target, maxDepth = 20)` -/
def buildTrace (g : Graph) (target : String) (maxDepth : Nat := 20) : Trace :=
  buildTraceLoop g maxDepth target [] [{ file := target }]

/-! ## Pattern matching -/

/-- The test applied to each pattern inside `match`:
`typeof p === 'string' ? micromatch.isMatch(id, p) : p.test(id)`.
`glob` is the opaque micromatch capability and `reTest` the opaque
JavaScript RegExp test. -/
def patternTest (glob : String → String → Bool) (reTest : RegexPat → String → Bool)
    (id : String) : Pattern → Bool
  | .str s => glob id s
  | .regex r => reTest r id

/-- `match(id, patterns)`: `patterns.find(...) ?? null` over the list in
declared order (`none` both for an absent list and for no match).
(The source calls this `match`, a reserved word in Lean.) -/
def matchPattern (glob : String → String → Bool) (reTest : RegexPat → String → Bool)
    (id : String) : Option (List Pattern) → Option Pattern
  | none => none
  | some ps => ps.find? (patternTest glob reTest id)

/-- JavaScript truthiness of a `Pattern | null` value, as used in
`if (denied)` and in `isIgnored`: `null` and the empty string are falsy,
every other string and every `RegExp` object are truthy. -/
def patTruthy : Option Pattern → Bool
  | none => false
  | some (.str s) => !s.isEmpty
  | some (.regex _) => true

/-- `isIgnored(trace, patterns)` -/
def isIgnored (glob : String → String → Bool) (reTest : RegexPat → String → Bool)
    (trace : Trace) (patterns : List Pattern) : Bool :=
  decide (patterns.length > 0) &&
    trace.any (fun entry => patTruthy (matchPattern glob reTest entry.file (some patterns)))

/-! ## Directive detection -/

/-- The two recognized boundary directives. -/
inductive Directive : Type
  | useServer
  | useClient
deriving DecidableEq, Repr

/-- JavaScript `String.prototype.trimStart`, modelled on the character
list: drop leading whitespace. -/
def jsTrimStart (s : String) : String :=
  String.mk (s.data.dropWhile Char.isWhitespace)

/-- JavaScript `String.prototype.startsWith`, modelled on the character
list. -/
def jsStartsWith (s p : String) : Bool :=
  p.data.isPrefixOf s.data

/-- `getDirective(code)`: trim leading whitespace and test for a leading
single- or double-quoted `use server` / `use client` literal. -/
def getDirective (code : String) : Option Directive :=
  let t := jsTrimStart code
  if jsStartsWith t "\x27use server\x27" || jsStartsWith t "\"use server\"" then
    some .useServer
  else if jsStartsWith t "\x27use client\x27" || jsStartsWith t "\"use client\"" then
    some .useClient
  else none

/-! ## Error formatting -/

/-- JavaScript `String.prototype.includes`. -/
def includesStr (s pat : String) : Bool :=
  decide (pat.data <:+: s.data)

/-- JavaScript `content.split('\n')`, modelled on the character list. -/
def jsSplitLines (s : String) : List String :=
  (s.data.splitOn '\n').map (fun l => String.mk l)

/-- JavaScript truthiness of a `string | null | undefined` value. -/
def strTruthy : Option String → Bool
  | none => false
  | some s => !s.isEmpty

/-- `ENV_EMOJI[env]` -/
def envEmoji : Env → String
  | .client => "🌐"
  | .server => "🖥️"

/-- String interpolation of an `Env` value. -/
def envString : Env → String
  | .client => "client"
  | .server => "server"

/-- String interpolation of a `Directive` value. -/
def directiveText : Directive → String
  | .useServer => "use server"
  | .useClient => "use client"

/-- String interpolation of a `Pattern` (`${pattern}`): a string interpolates
to itself, a RegExp to `/source/flags`. -/
def patternString : Pattern → String
  | .str s => s
  | .regex r => "/" ++ r.source ++ "/" ++ r.flags

/-- `SEPARATOR = '─'.repeat(40)` -/
def separatorLine : String := String.mk (List.replicate 40 '─')

/-- `PLUGIN_NAME` -/
def pluginName : String := "unplugin-deny-imports"

/-- `interface ErrorInfo { message, id?, plugin }` -/
structure ErrorInfo : Type where
  message : String
  id : Option String := none
  plugin : String
deriving DecidableEq, Repr

/-- `findImportLine(filePath, specifier)`: read the file (the file system is
the opaque `readFile`; a read failure yields `none`), split on newlines, and
return the first 1-based line number of an import/require line quoting the
specifier. -/
def findImportLine (readFile : String → Option String) (filePath specifier : String) :
    Option Nat :=
  match readFile filePath with
  | none => none
  | some content =>
      let lines := jsSplitLines content
      (lines.findIdx? (fun line =>
        (includesStr line "import" || includesStr line "require") &&
          (includesStr line ("\x27" ++ specifier ++ "\x27") ||
           includesStr line ("\"" ++ specifier ++ "\"")))).map (· + 1)

/-- The `:${lineNum}` suffix of one rendered trace entry:
`entry.specifier ? findImportLine(...) : null` followed by
`lineNum ? ':' + lineNum : ''` (both JavaScript-truthy tests). -/
def locString (readFile : String → Option String) (entry : TraceEntry) : String :=
  match entry.specifier with
  | none => ""
  | some spec =>
      if spec.isEmpty then ""
      else
        match findImportLine readFile entry.file spec with
        | none => ""
        | some n => if n == 0 then "" else ":" ++ toString n

/-- One line of the `reversed.map((entry, i) => ...)` body in `renderTrace`:
`  ${i + 2}. ${relative}${loc}${suffix}`, where `n` is `reversed.length`
and the last entry (the entry point) gets the ` (entry)` suffix.
`relativeF` is the opaque `path.relative`-and-normalize capability used by
`toRelative`. -/
def entryLine (relativeF : String → String → String)
    (readFile : String → Option String) (root : String) (n i : Nat)
    (entry : TraceEntry) : String :=
  let rel := relativeF root entry.file
  let suffix := if i == n - 1 then " (entry)" else ""
  "  " ++ toString (i + 2) ++ ". " ++ rel ++ locString readFile entry ++ suffix

/-- The map of `entryLine` over the reversed trace with its running index. -/
def renderEntries (relativeF : String → String → String)
    (readFile : String → Option String) (root : String) (n : Nat) :
    Nat → List TraceEntry → List String
  | _, [] => []
  | i, entry :: rest =>
      entryLine relativeF readFile root n i entry ::
        renderEntries relativeF readFile root n (i + 1) rest

/-- `lines.join('\n')` -/
def joinNL : List String → String
  | [] => ""
  | [a] => a
  | a :: b :: rest => a ++ "\n" ++ joinNL (b :: rest)

/-- `renderTrace(trace, denied, root)`: a header line numbered 1 for the
denied module, then the reversed trace numbered from 2, the last (oldest)
entry suffixed `(entry)`. -/
def renderTrace (relativeF : String → String → String)
    (readFile : String → Option String) (trace : Trace) (denied root : String) : String :=
  let reversed := trace.reverse
  joinNL (("  1. ❌ " ++ denied) ::
    renderEntries relativeF readFile root reversed.length 0 reversed)

/-- `'specifier' | 'file'` -/
inductive DenyKind : Type
  | specifier
  | file
deriving DecidableEq, Repr

/-- `denyError(type, pattern, trace, importId, resolvedPath, env, root)` -/
def denyError (relativeF : String → String → String)
    (readFile : String → Option String) (kind : DenyKind) (pattern : Pattern)
    (trace : Trace) (importId : String) (resolvedPath : Option String)
    (env : Env) (root : String) : ErrorInfo :=
  let formattedTrace := renderTrace relativeF readFile trace importId root
  let resolvedLine : Option String :=
    if kind = .file && strTruthy resolvedPath then
      (resolvedPath.map (fun p => "resolved: " ++ relativeF root p))
    else none
  let lines : List String :=
    ["🚫 Import Denied",
     envEmoji env ++ " " ++ envString env ++ "  ·  pattern: " ++ patternString pattern] ++
    (match resolvedLine with | some l => [l] | none => []) ++
    [separatorLine, formattedTrace, separatorLine]
  { message := joinNL lines
    id := match (trace.getLast?).map TraceEntry.file with
          | some f => some f
          | none => resolvedPath
    plugin := pluginName }

/-- `directiveError(directive, filePath, trace, env, root)` -/
def directiveError (relativeF : String → String → String)
    (readFile : String → Option String) (directive : Directive)
    (filePath : String) (trace : Trace) (env : Env) (root : String) : ErrorInfo :=
  let relativePath := relativeF root filePath
  let formattedTrace := renderTrace relativeF readFile trace relativePath root
  let lines : List String :=
    ["🚫 Directive Denied",
     envEmoji env ++ " " ++ envString env ++ "  ·  \"" ++ directiveText directive ++ "\"",
     "file: " ++ relativePath,
     separatorLine, formattedTrace, separatorLine]
  { message := joinNL lines, id := some filePath, plugin := pluginName }

/-! ## Plugin hooks

The scoped per-instance configuration and capabilities are bundled in
`PluginCtx`; the mutable per-build state (`graph`, `resolving`) is passed
and returned explicitly.  A hook invocation either returns `null`
(pass-through) or throws the denial error (`mode: 'error'`); in
`mode: 'warn'` the diagnostic is pushed to a `warnings` log and the hook
returns `null`. -/

/-- `'error' | 'warn'` -/
inductive Mode : Type
  | error
  | warn
deriving DecidableEq, Repr

/-- How a hook invocation ended: a normal `return null`, or a thrown
denial error. -/
inductive HookExit : Type
  | ret
  | threw (info : ErrorInfo)
deriving DecidableEq, Repr

/-- Scoped plugin-instance configuration, with the opaque external
capabilities (micromatch, RegExp test, `path.isAbsolute`, `toRelative`,
the file system) as fields. -/
structure PluginCtx : Type where
  glob : String → String → Bool
  reTest : RegexPat → String → Bool
  isAbs : String → Bool
  relativeF : String → String → String
  readFile : String → Option String
  clientSpecifiers : Option (List Pattern) := none
  serverSpecifiers : Option (List Pattern) := none
  clientFiles : Option (List Pattern) := none
  serverFiles : Option (List Pattern) := none
  ignoreImporters : List Pattern := []
  maxDepth : Nat := 15
  directives : Bool := true
  mode : Mode := .error
  root : String
  isSsrBuild : Bool := false

/-- `specifiers[env]` -/
def specifiersFor (ctx : PluginCtx) : Env → Option (List Pattern)
  | .client => ctx.clientSpecifiers
  | .server => ctx.serverSpecifiers

/-- `files[env]` -/
def filesFor (ctx : PluginCtx) : Env → Option (List Pattern)
  | .client => ctx.clientFiles
  | .server => ctx.serverFiles

/-- `opts?.ssr ? 'server' : 'client'` -/
def envOfSsr (ssr : Option Bool) : Env :=
  if ssr.getD false then .server else .client

/-- `deny(info)`: throw in error mode, log a warning and continue in warn
mode (the hook then falls through to `return null`). -/
def denyResult (ctx : PluginCtx) (info : ErrorInfo) : HookExit × List ErrorInfo :=
  match ctx.mode with
  | .error => (.threw info, [])
  | .warn => (.ret, [info])

/-- The specifiers plugin's Vite `resolveId(id, importer, opts)` hook. -/
def specifiersViteResolveId (ctx : PluginCtx) (g : Graph) (id : String)
    (importer : Option String) (ssr : Option Bool) : HookExit × List ErrorInfo :=
  if !strTruthy importer then (.ret, [])
  else
    let env := envOfSsr ssr
    let denied := matchPattern ctx.glob ctx.reTest id (specifiersFor ctx env)
    if patTruthy denied then
      match denied with
      | some p =>
          let trace := buildTrace g (importer.getD "") ctx.maxDepth
          if isIgnored ctx.glob ctx.reTest trace ctx.ignoreImporters then (.ret, [])
          else denyResult ctx
            (denyError ctx.relativeF ctx.readFile .specifier p trace id none env ctx.root)
      | none => (.ret, [])
    else (.ret, [])

/-- The specifiers plugin's non-Vite fallback `resolveId(id, importer)`. -/
def specifiersFallbackResolveId (ctx : PluginCtx) (g : Graph) (id : String)
    (importer : Option String) : HookExit × List ErrorInfo :=
  if !strTruthy importer then (.ret, [])
  else
    let env := if ctx.isSsrBuild then Env.server else Env.client
    let denied := matchPattern ctx.glob ctx.reTest id (specifiersFor ctx env)
    if patTruthy denied then
      match denied with
      | some p =>
          let trace := buildTrace g (importer.getD "") ctx.maxDepth
          if isIgnored ctx.glob ctx.reTest trace ctx.ignoreImporters then (.ret, [])
          else denyResult ctx
            (denyError ctx.relativeF ctx.readFile .specifier p trace id none env ctx.root)
      | none => (.ret, [])
    else (.ret, [])

/-- Result of a files-plugin hook invocation: exit status, updated graph,
updated `resolving` set, and any warn-mode diagnostics. -/
structure FilesHookOut : Type where
  exit : HookExit
  graph : Graph
  resolving : List String
  warnings : List ErrorInfo
deriving DecidableEq, Repr

/-- The guarded `try` body of the files plugin's Vite `resolveId` hook
(everything between the `resolving.add` and the `finally`).
`resolve` is the host resolver (`this.resolve(id, importer, {skipSelf})`),
returning the resolved id or nothing. -/
def filesViteBody (ctx : PluginCtx) (resolve : String → Option String → Option String)
    (g : Graph) (id : String) (importer : Option String) (ssr : Option Bool) :
    HookExit × Graph × List ErrorInfo :=
  match resolve id importer with
  | none => (.ret, g, [])
  | some resolvedId =>
      if resolvedId.isEmpty || !ctx.isAbs resolvedId then (.ret, g, [])
      else
        let g1 := if strTruthy importer then record g resolvedId (importer.getD "") id else g
        let relativePath := ctx.relativeF ctx.root resolvedId
        let env := envOfSsr ssr
        let denied := matchPattern ctx.glob ctx.reTest relativePath (filesFor ctx env)
        if patTruthy denied then
          match denied with
          | some p =>
              let trace :=
                if strTruthy importer then buildTrace g1 (importer.getD "") ctx.maxDepth
                else []
              if isIgnored ctx.glob ctx.reTest trace ctx.ignoreImporters then (.ret, g1, [])
              else
                match denyResult ctx
                  (denyError ctx.relativeF ctx.readFile .file p trace id
                    (some resolvedId) env ctx.root) with
                | (ex, ws) => (ex, g1, ws)
          | none => (.ret, g1, [])
        else (.ret, g1, [])

/-- The files plugin's Vite `resolveId(id, importer, opts)` hook: skip
`.html` importers, guard re-entrant resolution of the same `(id, importer)`
key, run the body, and release the key in `finally` on every exit path. -/
def filesViteResolveId (ctx : PluginCtx) (resolve : String → Option String → Option String)
    (g : Graph) (resolving : List String) (id : String) (importer : Option String)
    (ssr : Option Bool) : FilesHookOut :=
  if (match importer with | some imp => imp.endsWith ".html" | none => false) then
    { exit := .ret, graph := g, resolving := resolving, warnings := [] }
  else
    let key := id ++ ":" ++ (match importer with | some imp => imp | none => "undefined")
    if resolving.contains key then
      { exit := .ret, graph := g, resolving := resolving, warnings := [] }
    else
      match filesViteBody ctx resolve g id importer ssr with
      | (ex, g1, ws) =>
          { exit := ex, graph := g1,
            resolving := (key :: resolving).filter (fun k => !(k == key)),
            warnings := ws }

/-- The guarded `try` body of the files plugin's non-Vite fallback hook;
`imp` is the (truthy) importer. -/
def filesFallbackBody (ctx : PluginCtx) (g : Graph) (id : String) (imp : String) :
    HookExit × Graph × List ErrorInfo :=
  let g1 := if ctx.isAbs id then record g id imp id else g
  let env := if ctx.isSsrBuild then Env.server else Env.client
  if ctx.isAbs id then
    let relativePath := ctx.relativeF ctx.root id
    let denied := matchPattern ctx.glob ctx.reTest relativePath (filesFor ctx env)
    if patTruthy denied then
      match denied with
      | some p =>
          let trace := buildTrace g1 imp ctx.maxDepth
          if isIgnored ctx.glob ctx.reTest trace ctx.ignoreImporters then (.ret, g1, [])
          else
            match denyResult ctx
              (denyError ctx.relativeF ctx.readFile .file p trace id (some id) env ctx.root) with
            | (ex, ws) => (ex, g1, ws)
      | none => (.ret, g1, [])
    else (.ret, g1, [])
  else (.ret, g1, [])

/-- The files plugin's non-Vite fallback `resolveId(id, importer)`. -/
def filesFallbackResolveId (ctx : PluginCtx) (g : Graph) (resolving : List String)
    (id : String) (importer : Option String) : FilesHookOut :=
  if !strTruthy importer || (importer.getD "").endsWith ".html" then
    { exit := .ret, graph := g, resolving := resolving, warnings := [] }
  else
    let key := id ++ ":" ++ (importer.getD "")
    if resolving.contains key then
      { exit := .ret, graph := g, resolving := resolving, warnings := [] }
    else
      match filesFallbackBody ctx g id (importer.getD "") with
      | (ex, g1, ws) =>
          { exit := ex, graph := g1,
            resolving := (key :: resolving).filter (fun k => !(k == key)),
            warnings := ws }

/-- The directive plugin's Vite `transform(code, id, options)` hook. -/
def directiveViteTransform (ctx : PluginCtx) (g : Graph) (code id : String)
    (ssr : Option Bool) : HookExit × List ErrorInfo :=
  if !ctx.directives then (.ret, [])
  else
    match getDirective code with
    | none => (.ret, [])
    | some d =>
        let isServer := ssr.getD false
        if d = Directive.useServer ∧ isServer = false then
          let env := if isServer then Env.server else Env.client
          denyResult ctx
            (directiveError ctx.relativeF ctx.readFile d id
              (buildTrace g id ctx.maxDepth) env ctx.root)
        else (.ret, [])

/-- The directive plugin's non-Vite fallback `transform(code, id)`. -/
def directiveFallbackTransform (ctx : PluginCtx) (g : Graph) (code id : String) :
    HookExit × List ErrorInfo :=
  if !ctx.directives then (.ret, [])
  else
    match getDirective code with
    | none => (.ret, [])
    | some d =>
        if d = Directive.useServer ∧ ctx.isSsrBuild = false then
          denyResult ctx
            (directiveError ctx.relativeF ctx.readFile d id
              (buildTrace g id ctx.maxDepth) Env.client ctx.root)
        else (.ret, [])

/-! ## Presets (`presets.ts`) -/

/-- `interface Preset` side: `Required<EnvOptions>`. -/
structure EnvOptionsReq : Type where
  specifiers : List Pattern
  files : List Pattern
deriving DecidableEq, Repr

/-- `interface Preset` -/
structure Preset : Type where
  client : EnvOptionsReq
  server : EnvOptionsReq
  ignoreImporters : List Pattern
deriving DecidableEq, Repr

/-- The optional `EnvOptions` shape used in `PresetOverrides`. -/
structure EnvOptionsOpt : Type where
  specifiers : Option (List Pattern) := none
  files : Option (List Pattern) := none
deriving DecidableEq, Repr

/-- `interface PresetOverrides` -/
structure PresetOverrides : Type where
  client : Option EnvOptionsOpt := none
  server : Option EnvOptionsOpt := none
  ignoreImporters : Option (List Pattern) := none
  exclude : Option (List Pattern) := none
deriving DecidableEq, Repr

/-- `patternMatches(pattern, exclude)`: strings compare by equality,
regexes by `source` and `flags`; mixed kinds never match. -/
def patternMatches (pattern excl : Pattern) : Bool :=
  match pattern, excl with
  | .str p, .str e => p == e
  | .regex p, .regex e => p.source == e.source && p.flags == e.flags
  | _, _ => false

/-- `filterPatterns(patterns, exclude)` -/
def filterPatterns (patterns excl : List Pattern) : List Pattern :=
  if excl.length == 0 then patterns
  else patterns.filter (fun p => !(excl.any (fun e => patternMatches p e)))

def defaultClientSpecifiers : List Pattern :=
  [Pattern.regex ⟨"^node:", ""⟩,
   Pattern.str "assert",
   Pattern.str "async_hooks",
   Pattern.str "buffer",
   Pattern.str "child_process",
   Pattern.str "cluster",
   Pattern.str "console",
   Pattern.str "constants",
   Pattern.str "crypto",
   Pattern.str "dgram",
   Pattern.str "diagnostics_channel",
   Pattern.str "dns",
   Pattern.str "domain",
   Pattern.str "events",
   Pattern.str "fs",
   Pattern.str "http",
   Pattern.str "http2",
   Pattern.str "https",
   Pattern.str "inspector",
   Pattern.str "module",
   Pattern.str "net",
   Pattern.str "os",
   Pattern.str "path",
   Pattern.str "perf_hooks",
   Pattern.str "process",
   Pattern.str "punycode",
   Pattern.str "querystring",
   Pattern.str "readline",
   Pattern.str "repl",
   Pattern.str "stream",
   Pattern.str "string_decoder",
   Pattern.str "timers",
   Pattern.str "tls",
   Pattern.str "trace_events",
   Pattern.str "tty",
   Pattern.str "url",
   Pattern.str "util",
   Pattern.str "v8",
   Pattern.str "vm",
   Pattern.str "wasi",
   Pattern.str "worker_threads",
   Pattern.str "zlib",
   Pattern.regex ⟨"^bun:", ""⟩,
   Pattern.regex ⟨"^bun$", ""⟩,
   Pattern.str "pg",
   Pattern.str "postgres",
   Pattern.str "@vercel/postgres",
   Pattern.str "@neondatabase/serverless",
   Pattern.str "mysql",
   Pattern.str "mysql2",
   Pattern.str "better-sqlite3",
   Pattern.str "sql.js",
   Pattern.str "sqlite3",
   Pattern.str "@libsql/client",
   Pattern.str "mongodb",
   Pattern.str "mongoose",
   Pattern.str "redis",
   Pattern.str "ioredis",
   Pattern.str "@upstash/redis",
   Pattern.str "drizzle-orm",
   Pattern.regex ⟨"^drizzle-orm\\/", ""⟩,
   Pattern.str "kysely",
   Pattern.str "@prisma/client",
   Pattern.str "prisma",
   Pattern.str "typeorm",
   Pattern.str "sequelize",
   Pattern.str "knex",
   Pattern.str "@mikro-orm/core",
   Pattern.regex ⟨"^@mikro-orm\\/", ""⟩,
   Pattern.str "objection",
   Pattern.regex ⟨"^@planetscale\\/", ""⟩,
   Pattern.regex ⟨"^@turso\\/", ""⟩,
   Pattern.str "@clickhouse/client",
   Pattern.str "cassandra-driver",
   Pattern.str "neo4j-driver",
   Pattern.str "elasticsearch",
   Pattern.str "@elastic/elasticsearch",
   Pattern.str "express",
   Pattern.regex ⟨"^express\\/", ""⟩,
   Pattern.str "fastify",
   Pattern.regex ⟨"^@fastify\\/", ""⟩,
   Pattern.str "hono",
   Pattern.regex ⟨"^hono\\/", ""⟩,
   Pattern.str "koa",
   Pattern.regex ⟨"^@koa\\/", ""⟩,
   Pattern.str "@hapi/hapi",
   Pattern.regex ⟨"^@hapi\\/", ""⟩,
   Pattern.str "polka",
   Pattern.str "restify",
   Pattern.str "bcrypt",
   Pattern.str "bcryptjs",
   Pattern.str "argon2",
   Pattern.str "jsonwebtoken",
   Pattern.str "passport",
   Pattern.regex ⟨"^passport-", ""⟩,
   Pattern.str "lucia",
   Pattern.str "@lucia-auth/adapter-drizzle",
   Pattern.regex ⟨"^@lucia-auth\\/", ""⟩,
   Pattern.str "arctic",
   Pattern.str "@auth/core",
   Pattern.regex ⟨"^@auth\\/", ""⟩,
   Pattern.str "next-auth",
   Pattern.str "@clerk/backend",
   Pattern.str "nodemailer",
   Pattern.str "@sendgrid/mail",
   Pattern.regex ⟨"^@sendgrid\\/", ""⟩,
   Pattern.str "resend",
   Pattern.str "postmark",
   Pattern.str "@react-email/components",
   Pattern.regex ⟨"^@react-email\\/", ""⟩,
   Pattern.str "mailgun.js",
   Pattern.str "@mailchimp/mailchimp_marketing",
   Pattern.str "fs-extra",
   Pattern.str "chokidar",
   Pattern.str "glob",
   Pattern.str "fast-glob",
   Pattern.str "globby",
   Pattern.str "formidable",
   Pattern.str "multer",
   Pattern.str "busboy",
   Pattern.str "sharp",
   Pattern.str "jimp",
   Pattern.str "@aws-sdk/client-s3",
   Pattern.regex ⟨"^@aws-sdk\\/", ""⟩,
   Pattern.str "@google-cloud/storage",
   Pattern.regex ⟨"^@google-cloud\\/", ""⟩,
   Pattern.regex ⟨"^@azure\\/", ""⟩,
   Pattern.str "minio",
   Pattern.str "winston",
   Pattern.str "bunyan",
   Pattern.str "morgan",
   Pattern.str "@sentry/node",
   Pattern.str "newrelic",
   Pattern.str "dd-trace",
   Pattern.str "bullmq",
   Pattern.str "bull",
   Pattern.str "bee-queue",
   Pattern.str "agenda",
   Pattern.str "@quirrel/quirrel",
   Pattern.str "pg-boss",
   Pattern.str "graphile-worker",
   Pattern.str "socket.io",
   Pattern.str "ws",
   Pattern.str "pusher",
   Pattern.str "@pusher/push-notifications-server",
   Pattern.str "dotenv",
   Pattern.str "dotenv/config",
   Pattern.str "cross-env",
   Pattern.str "execa",
   Pattern.str "shelljs",
   Pattern.str "got",
   Pattern.str "node-fetch",
   Pattern.str "undici",
   Pattern.str "node-cache",
   Pattern.str "stripe",
   Pattern.str "@lemonsqueezy/lemonsqueezy.js",
   Pattern.str "paddle-sdk",
   Pattern.str "directus",
   Pattern.str "@directus/sdk",
   Pattern.str "vitest",
   Pattern.regex ⟨"^@vitest\\/", ""⟩,
   Pattern.str "jest",
   Pattern.regex ⟨"^@jest\\/", ""⟩,
   Pattern.str "mocha",
   Pattern.str "chai",
   Pattern.str "sinon",
   Pattern.str "@testing-library/react",
   Pattern.regex ⟨"^@testing-library\\/", ""⟩,
   Pattern.str "playwright",
   Pattern.str "@playwright/test",
   Pattern.str "puppeteer",
   Pattern.str "cypress",
   Pattern.str "ssh2",
   Pattern.str "node-ssh",
   Pattern.str "ssh2-sftp-client",
   Pattern.str "basic-ftp",
   Pattern.str "ftp",
   Pattern.str "systeminformation",
   Pattern.str "os-utils",
   Pattern.str "pidusage",
   Pattern.str "ps-list",
   Pattern.str "node-cron",
   Pattern.str "cron",
   Pattern.str "croner",
   Pattern.str "node-schedule",
   Pattern.str "archiver",
   Pattern.str "yauzl",
   Pattern.str "yazl",
   Pattern.str "tar",
   Pattern.str "tar-fs",
   Pattern.str "adm-zip",
   Pattern.str "cheerio",
   Pattern.str "jsdom",
   Pattern.str "linkedom",
   Pattern.str "node-html-parser",
   Pattern.str "pdfkit",
   Pattern.str "@react-pdf/renderer",
   Pattern.str "@apollo/server",
   Pattern.regex ⟨"^@apollo\\/server", ""⟩,
   Pattern.str "graphql-yoga",
   Pattern.str "mercurius",
   Pattern.str "@graphql-tools/schema",
   Pattern.str "@grpc/grpc-js",
   Pattern.str "@grpc/proto-loader",
   Pattern.str "amqplib",
   Pattern.str "kafkajs",
   Pattern.str "@confluentinc/kafka-javascript",
   Pattern.str "twilio",
   Pattern.str "@slack/web-api",
   Pattern.regex ⟨"^@slack\\/", ""⟩,
   Pattern.str "discord.js",
   Pattern.str "telegraf",
   Pattern.str "openai",
   Pattern.str "@anthropic-ai/sdk",
   Pattern.str "cohere-ai",
   Pattern.str "@google/generative-ai",
   Pattern.str "replicate",
   Pattern.str "langchain",
   Pattern.regex ⟨"^@langchain\\/", ""⟩,
   Pattern.str "ejs",
   Pattern.str "pug",
   Pattern.str "nunjucks",
   Pattern.str "eta"]

def defaultClientFiles : List Pattern :=
  [Pattern.str "**/.server/**",
   Pattern.str "**/*.server.*",
   Pattern.str "**/*-server.*",
   Pattern.str "**/*_server.*"]

def defaultServerSpecifiers : List Pattern :=
  [Pattern.str "react-dom/client",
   Pattern.str "@tanstack/react-router",
   Pattern.str "@tanstack/router-devtools",
   Pattern.str "framer-motion",
   Pattern.str "@formkit/auto-animate",
   Pattern.str "localforage",
   Pattern.str "idb",
   Pattern.str "idb-keyval"]

def defaultServerFiles : List Pattern :=
  [Pattern.str "**/.client/**",
   Pattern.str "**/*.client.*",
   Pattern.str "**/*-client.*",
   Pattern.str "**/*_client.*"]

def defaultIgnoreImporters : List Pattern :=
  [Pattern.str "**/*.test.*",
   Pattern.str "**/*.spec.*",
   Pattern.str "**/__tests__/**",
   Pattern.str "**/routeTree.gen.ts",
   Pattern.str "**/*.tree.ts",
   Pattern.str "**/tree.ts"]

/-- `defaultPreset` -/
def defaultPreset : Preset :=
  { client := { specifiers := defaultClientSpecifiers, files := defaultClientFiles }
    server := { specifiers := defaultServerSpecifiers, files := defaultServerFiles }
    ignoreImporters := defaultIgnoreImporters }

/-- `preset(overrides)` -/
def preset (overrides : PresetOverrides := {}) : Preset :=
  let excl := overrides.exclude.getD []
  { client :=
      { specifiers := filterPatterns defaultPreset.client.specifiers excl ++
          ((overrides.client.bind EnvOptionsOpt.specifiers).getD [])
        files := filterPatterns defaultPreset.client.files excl ++
          ((overrides.client.bind EnvOptionsOpt.files).getD []) }
    server :=
      { specifiers := filterPatterns defaultPreset.server.specifiers excl ++
          ((overrides.server.bind EnvOptionsOpt.specifiers).getD [])
        files := filterPatterns defaultPreset.server.files excl ++
          ((overrides.server.bind EnvOptionsOpt.files).getD []) }
    ignoreImporters := filterPatterns defaultPreset.ignoreImporters excl ++
      (overrides.ignoreImporters.getD []) }

/-! ## Concrete fixtures

Small concrete graphs and capability instances used to exercise the
definitions (mirroring the repository's test fixtures). -/

/-- The recorded graph of the chain
`entry.js → a.js → b.js → c.js → denied` (the `deep-import` fixture). -/
def chainGraph : Graph :=
  record (record (record (record [] "a.js" "entry.js" "./a") "b.js" "a.js" "./b")
    "c.js" "b.js" "./c") "denied" "c.js" "denied-module"

/-- A two-node cyclic graph: `a.js` imported by `b.js`, `b.js` imported
by `a.js`. -/
def cycleGraph : Graph :=
  record (record [] "a.js" "b.js" "./a") "b.js" "a.js" "./b"

/-- A trivial `toRelative` capability that returns the path unchanged. -/
def idRelative : String → String → String := fun _ f => f

/-- A file system on which every read fails. -/
def noRead : String → Option String := fun _ => none

/-- A file system holding one file, `c.js`, whose second line imports
`denied-module`. -/
def oneFileRead : String → Option String := fun p =>
  if p == "c.js" then some ("// header\nimport x from \x27denied-module\x27\nexport x")
  else none

/-- A concrete instance of the opaque micromatch capability, behaving as
micromatch does on the two pattern/candidate pairs the fixtures use. -/
def demoGlob : String → String → Bool := fun id p =>
  (p == "**/*.server.*" && id == "/proj/util.server.ts") || (p == id)

/-- A concrete RegExp-test capability (never matches). -/
def demoReTest : RegexPat → String → Bool := fun _ _ => false

/-- A plugin context for exercising the files plugin: client file rules
deny `**/*.server.*`, error mode. -/
def demoCtx : PluginCtx :=
  { glob := demoGlob
    reTest := demoReTest
    isAbs := fun _ => true
    relativeF := idRelative
    readFile := noRead
    clientFiles := some [Pattern.str "**/*.server.*"]
    root := "/proj" }

/-- A host resolver that resolves every specifier to
`/proj/util.server.ts`. -/
def demoResolve : String → Option String → Option String :=
  fun _ _ => some "/proj/util.server.ts"

/-! ## Helper lemmas about the trace walk -/

theorem buildTraceLoop_suffix (g : Graph) (maxD : Nat) :
    ∀ (n : Nat) (cur : String) (vis : List String) (trace : Trace),
      maxD - trace.length ≤ n →
      ∃ pre, buildTraceLoop g maxD cur vis trace = pre ++ trace := by
  intro n
  induction n with
  | zero =>
      intro cur vis trace hn
      rw [buildTraceLoop]
      split
      · next hcond => exact absurd hcond.2.2 (by omega)
      · exact ⟨[], rfl⟩
  | succ n ih =>
      intro cur vis trace hn
      rw [buildTraceLoop]
      split
      · next hcond =>
          split
          · exact ⟨[], rfl⟩
          · next e rest hE =>
              obtain ⟨pre, hpre⟩ := ih e.importer (cur :: vis)
                ({ file := e.importer, specifier := some e.specifier } :: trace)
                (by simp only [List.length_cons]; omega)
              exact ⟨pre ++ [{ file := e.importer, specifier := some e.specifier }],
                by rw [hpre]; simp⟩
      · exact ⟨[], rfl⟩

theorem buildTraceLoop_length_le (g : Graph) (maxD : Nat) :
    ∀ (n : Nat) (cur : String) (vis : List String) (trace : Trace),
      maxD - trace.length ≤ n →
      (buildTraceLoop g maxD cur vis trace).length ≤ max maxD trace.length := by
  intro n
  induction n with
  | zero =>
      intro cur vis trace hn
      rw [buildTraceLoop]
      split
      · next hcond => exact absurd hcond.2.2 (by omega)
      · exact Nat.le_max_right _ _
  | succ n ih =>
      intro cur vis trace hn
      rw [buildTraceLoop]
      split
      · next hcond =>
          split
          · exact Nat.le_max_right _ _
          · next e rest hE =>
              have h1 := ih e.importer (cur :: vis)
                ({ file := e.importer, specifier := some e.specifier } :: trace)
                (by simp only [List.length_cons]; omega)
              simp only [List.length_cons] at h1
              have h2 : trace.length + 1 ≤ maxD := hcond.2.2
              omega
      · exact Nat.le_max_right _ _

theorem mem_keys_of_lookupEdges (g : Graph) (cur : String) (e : ImportEdge)
    (l : List ImportEdge) (hE : lookupEdges g cur = e :: l) :
    cur ∈ g.map Prod.fst := by
  unfold lookupEdges at hE
  split at hE
  · next p hf =>
      have hb := List.find?_some hf
      have hmem : p ∈ g := List.mem_of_find?_eq_some hf
      have hp : p.1 = cur := by simpa using hb
      exact hp ▸ List.mem_map_of_mem Prod.fst hmem
  · simp at hE

theorem filter_unvisited_lt (L vis : List String) (cur : String)
    (hc : cur ∈ L) (hnv : cur ∉ vis) :
    (L.filter (fun k => decide (k ∉ cur :: vis))).length <
      (L.filter (fun k => decide (k ∉ vis))).length := by
  have h1 : L.filter (fun k => decide (k ∉ cur :: vis)) =
      (L.filter (fun k => decide (k ∉ vis))).filter (fun k => decide (k ≠ cur)) := by
    rw [List.filter_filter]
    apply List.filter_congr
    intro a _
    by_cases h1 : a = cur <;> by_cases h2 : a ∈ vis <;> simp [h1, h2, List.mem_cons]
  rw [h1]
  exact List.length_filter_lt_length_iff_exists.mpr
    ⟨cur, List.mem_filter.mpr ⟨hc, by simpa using hnv⟩, by simp⟩

theorem buildTraceLoop_length_le_keys (g : Graph) (maxD : Nat) :
    ∀ (n : Nat) (cur : String) (vis : List String) (trace : Trace),
      maxD - trace.length ≤ n →
      (buildTraceLoop g maxD cur vis trace).length ≤
        trace.length + ((g.map Prod.fst).dedup.filter (fun k => decide (k ∉ vis))).length := by
  intro n
  induction n with
  | zero =>
      intro cur vis trace hn
      rw [buildTraceLoop]
      split
      · next hcond => exact absurd hcond.2.2 (by omega)
      · exact Nat.le_add_right _ _
  | succ n ih =>
      intro cur vis trace hn
      rw [buildTraceLoop]
      split
      · next hcond =>
          split
          · exact Nat.le_add_right _ _
          · next e rest hE =>
              have hkey : cur ∈ (g.map Prod.fst).dedup :=
                List.mem_dedup.mpr (mem_keys_of_lookupEdges g cur e rest hE)
              have hlt := filter_unvisited_lt ((g.map Prod.fst).dedup) vis cur hkey hcond.2.1
              have h1 := ih e.importer (cur :: vis)
                ({ file := e.importer, specifier := some e.specifier } :: trace)
                (by simp only [List.length_cons]; omega)
              simp only [List.length_cons] at h1
              omega
      · exact Nat.le_add_right _ _

/-! ## Claims about `buildTrace` (C1, C6, C10) -/

/-- C1: on the recorded chain `entry.js → a.js → b.js → c.js → denied`,
`buildTrace "denied" 10` is the full five-node trace with `entry.js` first
and `denied` last; `buildTrace "denied" 2` is exactly the denied module and
its immediate importer and does not contain `entry.js`; and in general the
walk always follows the first recorded edge of the current node. -/
theorem c1_trace_chain :
    (buildTrace chainGraph "denied" 10 =
      [{ file := "entry.js", specifier := some "./a" },
       { file := "a.js", specifier := some "./b" },
       { file := "b.js", specifier := some "./c" },
       { file := "c.js", specifier := some "denied-module" },
       { file := "denied" }]) ∧
    (buildTrace chainGraph "denied" 2 =
      [{ file := "c.js", specifier := some "denied-module" }, { file := "denied" }] ∧
     ∀ entry ∈ buildTrace chainGraph "denied" 2, entry.file ≠ "entry.js") ∧
    (∀ (g : Graph) (target : String) (maxD : Nat) (e : ImportEdge) (es : List ImportEdge),
      target ≠ "" → lookupEdges g target = e :: es → 1 < maxD →
      ∃ pre, buildTrace g target maxD =
        pre ++ [{ file := e.importer, specifier := some e.specifier }, { file := target }]) := by
  refine ⟨?_, ⟨?_, ?_⟩, ?_⟩
  · simp +decide [buildTrace, buildTraceLoop, chainGraph, record, hasKey, lookupEdges, pushEdge]
  · simp +decide [buildTrace, buildTraceLoop, chainGraph, record, hasKey, lookupEdges, pushEdge]
  · intro entry hmem
    have h2 : buildTrace chainGraph "denied" 2 =
        [{ file := "c.js", specifier := some "denied-module" }, { file := "denied" }] := by
      simp +decide [buildTrace, buildTraceLoop, chainGraph, record, hasKey, lookupEdges, pushEdge]
    rw [h2] at hmem
    have hcases : entry = { file := "c.js", specifier := some "denied-module" } ∨
        entry = { file := "denied", specifier := none } := by
      simpa using hmem
    rcases hcases with h | h <;> rw [h] <;> decide
  · intro g target maxD e es htarget hE hmax
    unfold buildTrace
    rw [buildTraceLoop]
    rw [dif_pos ⟨htarget, by simp, by simpa using hmax⟩]
    rw [hE]
    obtain ⟨pre, hpre⟩ := buildTraceLoop_suffix g maxD maxD e.importer [target]
      [{ file := e.importer, specifier := some e.specifier }, { file := target }]
      (by omega)
    exact ⟨pre, hpre⟩

/-- C1 witness: the general first-edge property at the concrete chain. -/
theorem c1_trace_chain_witness :
    ∃ pre, buildTrace chainGraph "denied" 10 =
      pre ++ [{ file := "c.js", specifier := some "denied-module" }, { file := "denied" }] :=
  c1_trace_chain.2.2 chainGraph "denied" 10 { importer := "c.js", specifier := "denied-module" }
    [] (by decide)
    (by simp +decide [lookupEdges, chainGraph, record, hasKey, pushEdge])
    (by decide)

/-- C6 counterexample: with `maxDepth = 0` the returned trace still holds
one entry (the target itself), so "at most `maxDepth` entries for every
`maxDepth`" fails at `maxDepth = 0`. -/
theorem c6_depth_counterexample :
    ¬ ((buildTrace ([] : Graph) "x.js" 0).length ≤ 0) := by
  have h : buildTrace ([] : Graph) "x.js" 0 = [{ file := "x.js" }] := by
    simp +decide [buildTrace, buildTraceLoop]
  rw [h]
  simp

/-- C6 (amended): the trace returned by `buildTrace` has at most
`max maxDepth 1` entries — at most `maxDepth` whenever `maxDepth ≥ 1`, and
exactly the seeded target entry when `maxDepth = 0`. -/
theorem c6_depth_bound (g : Graph) (target : String) (maxD : Nat) :
    (buildTrace g target maxD).length ≤ max maxD 1 := by
  have h := buildTraceLoop_length_le g maxD maxD target [] [{ file := target }] (by omega)
  simpa [buildTrace] using h

/-- C10: `buildTrace` terminates on every finite graph with a trace of at
most `graph.size + 1` entries regardless of `maxDepth` (each node is
expanded at most once thanks to the visited-set guard), and on a cyclic
graph the already-visited importer appears a second time in the returned
trace because the guard fires only at the top of the next iteration. -/
theorem c10_trace_termination :
    (∀ (g : Graph) (target : String) (maxD : Nat),
      (buildTrace g target maxD).length ≤ graphSize g + 1) ∧
    buildTrace cycleGraph "a.js" 20 =
      [{ file := "a.js", specifier := some "./b" },
       { file := "b.js", specifier := some "./a" },
       { file := "a.js" }] := by
  constructor
  · intro g target maxD
    have h := buildTraceLoop_length_le_keys g maxD maxD target [] [{ file := target }] (by omega)
    have hfil : (g.map Prod.fst).dedup.filter (fun k => decide (k ∉ ([] : List String))) =
        (g.map Prod.fst).dedup :=
      List.filter_eq_self.mpr (by simp)
    rw [hfil] at h
    have hle : (g.map Prod.fst).dedup.length ≤ (g.map Prod.fst).length :=
      (List.dedup_sublist _).length_le
    simp only [List.length_map] at hle
    simp only [List.length_cons, List.length_nil] at h
    show (buildTraceLoop g maxD target [] [{ file := target }]).length ≤ graphSize g + 1
    simp only [graphSize]
    omega
  · simp +decide [buildTrace, buildTraceLoop, cycleGraph, record, hasKey, lookupEdges, pushEdge]

/-! ## Helper lemmas about `record` and the graph invariant -/

theorem pushEdge_wf (es : List ImportEdge) (imp s : String)
    (h : es.Pairwise (fun a b => a.importer ≠ b.importer)) :
    (pushEdge es imp s).Pairwise (fun a b => a.importer ≠ b.importer) := by
  unfold pushEdge
  split
  · exact h
  · next hany =>
      rw [List.pairwise_append]
      refine ⟨h, List.pairwise_singleton _ _, ?_⟩
      intro a ha b hb
      have hb' : b = { importer := imp, specifier := s } := by simpa using hb
      have hane : ∀ e ∈ es, (e.importer == imp) = false := by
        intro e he
        by_contra hcon
        exact hany (List.any_eq_true.mpr ⟨e, he, by simpa using hcon⟩)
      have := hane a ha
      rw [hb']
      simpa using this

theorem pushEdge_has (es : List ImportEdge) (imp s : String) :
    (pushEdge es imp s).any (fun e => e.importer == imp) = true := by
  unfold pushEdge
  split
  · next hany => exact hany
  · apply List.any_eq_true.mpr
    exact ⟨{ importer := imp, specifier := s }, by simp, by simp⟩

theorem pushEdge_stable (es : List ImportEdge) (imp s : String)
    (h : es.any (fun e => e.importer == imp) = true) :
    pushEdge es imp s = es := by
  unfold pushEdge
  rw [if_pos h]

theorem hasKey_record (g : Graph) (id imp s : String) :
    hasKey (record g id imp s) id = true := by
  unfold record
  split
  · next hk =>
      unfold hasKey at hk ⊢
      rcases Option.isSome_iff_exists.mp hk with ⟨p, hp⟩
      have hfind : (g.map (fun q => if q.1 == id then (q.1, pushEdge q.2 imp s) else q)).find?
          (fun q => q.1 == id) ≠ none := by
        intro hnone
        have hall := List.find?_eq_none.mp hnone
        have hpb0 := List.find?_some hp
        have hpb : (p.1 == id) = true := by simpa using hpb0
        have hmem : p ∈ g := List.mem_of_find?_eq_some hp
        have hmem2 : (if p.1 == id then (p.1, pushEdge p.2 imp s) else p) ∈
            g.map (fun q => if q.1 == id then (q.1, pushEdge q.2 imp s) else q) :=
          List.mem_map_of_mem _ hmem
        rw [if_pos hpb] at hmem2
        exact hall _ hmem2 (by simpa using hpb)
      exact Option.isSome_iff_ne_none.mpr hfind
  · next hk =>
      unfold hasKey at hk ⊢
      have hnone : g.find? (fun q => q.1 == id) = none := by
        cases hf : g.find? (fun q => q.1 == id) with
        | none => rfl
        | some p => rw [hf] at hk; simp at hk
      rw [List.find?_append, hnone]
      simp

theorem record_map_stable (g1 : Graph) (id imp s' : String)
    (hall : ∀ p ∈ g1, (p.1 == id) = true → p.2.any (fun e => e.importer == imp) = true) :
    g1.map (fun p => if p.1 == id then (p.1, pushEdge p.2 imp s') else p) = g1 := by
  induction g1 with
  | nil => rfl
  | cons q rest ih =>
      have hrest := ih (fun p hp h => hall p (List.mem_cons_of_mem q hp) h)
      by_cases hq : (q.1 == id) = true
      · have hstable := pushEdge_stable q.2 imp s' (hall q (List.mem_cons_self q rest) hq)
        simp only [List.map_cons]
        rw [if_pos hq, hstable, Prod.mk.eta, hrest]
      · simp only [List.map_cons]
        rw [if_neg hq, hrest]

theorem record_mem_any (g : Graph) (id imp s : String) :
    ∀ p ∈ record g id imp s, (p.1 == id) = true →
      p.2.any (fun e => e.importer == imp) = true := by
  intro p hp hpid
  unfold record at hp
  split at hp
  · next hk =>
      obtain ⟨q, hq, hfq⟩ := List.mem_map.mp hp
      by_cases hqid : (q.1 == id) = true
      · rw [if_pos hqid] at hfq
        rw [← hfq]
        exact pushEdge_has q.2 imp s
      · rw [if_neg hqid] at hfq
        rw [← hfq] at hpid
        exact absurd hpid hqid
  · next hk =>
      rcases List.mem_append.mp hp with hmem | hmem
      · have hnone : g.find? (fun q => q.1 == id) = none := by
          unfold hasKey at hk
          cases hf : g.find? (fun q => q.1 == id) with
          | none => rfl
          | some q => rw [hf] at hk; simp at hk
        have := List.find?_eq_none.mp hnone p hmem
        exact absurd hpid (by simpa using this)
      · have hpeq : p = (id, pushEdge [] imp s) := by simpa using hmem
        rw [hpeq]
        exact pushEdge_has [] imp s

theorem record_idem (g : Graph) (id imp s s' : String) :
    record (record g id imp s) id imp s' = record g id imp s := by
  have hk2 := hasKey_record g id imp s
  show (if hasKey (record g id imp s) id then
      (record g id imp s).map (fun p => if p.1 == id then (p.1, pushEdge p.2 imp s') else p)
    else record g id imp s ++ [(id, pushEdge [] imp s')]) = record g id imp s
  rw [if_pos hk2]
  exact record_map_stable _ id imp s' (record_mem_any g id imp s)

theorem graphWF_record (g : Graph) (id imp s : String) (h : graphWF g) :
    graphWF (record g id imp s) := by
  unfold record
  split
  · intro p hp
    obtain ⟨q, hq, hfq⟩ := List.mem_map.mp hp
    by_cases hqid : (q.1 == id) = true
    · rw [if_pos hqid] at hfq
      rw [← hfq]
      exact pushEdge_wf q.2 imp s (h q hq)
    · rw [if_neg hqid] at hfq
      rw [← hfq]
      exact h q hq
  · intro p hp
    rcases List.mem_append.mp hp with hmem | hmem
    · exact h p hmem
    · have hpeq : p = (id, pushEdge [] imp s) := by simpa using hmem
      rw [hpeq]
      exact pushEdge_wf [] imp s (List.Pairwise.nil)

theorem graphWF_invalidate (g : Graph) (f : String) (h : graphWF g) :
    graphWF (invalidate g f) := by
  intro p hp
  unfold invalidate at hp
  obtain ⟨q, hq, hfq⟩ := List.mem_map.mp hp
  have hq' : q ∈ g := List.mem_of_mem_filter hq
  rw [← hfq]
  exact (h q hq').filter _

/-! ## Claim C2 -/

/-- C2: `record` is idempotent in the `(target, importer)` pair — re-recording
an edge whose importer is already present leaves the whole graph unchanged —
and `record`, `invalidate` and `clear` all preserve the invariant that each
target's edge list has at most one edge per distinct importer. -/
theorem c2_record_idempotent (g : Graph) (id imp s s' f : String) :
    record (record g id imp s) id imp s' = record g id imp s ∧
    (graphWF g → graphWF (record g id imp s)) ∧
    (graphWF g → graphWF (invalidate g f)) ∧
    graphWF clear :=
  ⟨record_idem g id imp s s', graphWF_record g id imp s, graphWF_invalidate g f,
   fun p hp => by simp [clear] at hp⟩

/-- C2 witness: idempotence and invariant preservation at a concrete graph. -/
theorem c2_record_idempotent_witness :
    record (record chainGraph "denied" "c.js" "denied-module") "denied" "c.js" "again" =
      record chainGraph "denied" "c.js" "denied-module" ∧
    graphWF (record chainGraph "denied" "c.js" "denied-module") ∧
    graphWF (invalidate chainGraph "a.js") :=
  ⟨(c2_record_idempotent chainGraph "denied" "c.js" "denied-module" "again" "a.js").1,
   (c2_record_idempotent chainGraph "denied" "c.js" "denied-module" "again" "a.js").2.1
     (by unfold graphWF; decide),
   (c2_record_idempotent chainGraph "denied" "c.js" "denied-module" "again" "a.js").2.2.1
     (by unfold graphWF; decide)⟩

/-! ## Claims C5 and C9 about the resolution hooks -/

theorem filter_out_fresh (l : List String) (key : String) (h : key ∉ l) :
    (key :: l).filter (fun k => !(k == key)) = l := by
  have h1 : (key :: l).filter (fun k => !(k == key)) = l.filter (fun k => !(k == key)) := by
    simp [List.filter_cons]
  rw [h1]
  apply List.filter_eq_self.mpr
  intro a ha
  have hne : a ≠ key := fun he => h (he ▸ ha)
  simp [hne]

/-- C9: both files-plugin `resolveId` hooks release the per-`(id, importer)`
in-flight marker on every exit path: the `resolving` set after any
invocation equals the `resolving` set before it. -/
theorem c9_resolving_scoped (ctx : PluginCtx)
    (resolve : String → Option String → Option String) (g : Graph)
    (resolving : List String) (id : String) (importer : Option String)
    (ssr : Option Bool) :
    (filesViteResolveId ctx resolve g resolving id importer ssr).resolving = resolving ∧
    (filesFallbackResolveId ctx g resolving id importer).resolving = resolving := by
  constructor
  · cases importer with
    | none =>
        simp only [filesViteResolveId]
        split
        · rfl
        · split
          · rfl
          · next hcon =>
              rcases hbody : filesViteBody ctx resolve g id none ssr with ⟨ex, g1, ws⟩
              exact filter_out_fresh resolving _
                (fun hmem => hcon (List.elem_eq_true_of_mem hmem))
    | some imp =>
        simp only [filesViteResolveId]
        split
        · rfl
        · split
          · rfl
          · next hcon =>
              rcases hbody : filesViteBody ctx resolve g id (some imp) ssr with ⟨ex, g1, ws⟩
              exact filter_out_fresh resolving _
                (fun hmem => hcon (List.elem_eq_true_of_mem hmem))
  · cases importer with
    | none =>
        simp only [filesFallbackResolveId]
        split
        · rfl
        · split
          · rfl
          · next hcon =>
              rcases hbody : filesFallbackBody ctx g id (Option.getD none "") with ⟨ex, g1, ws⟩
              exact filter_out_fresh resolving _
                (fun hmem => hcon (List.elem_eq_true_of_mem hmem))
    | some imp =>
        simp only [filesFallbackResolveId]
        split
        · rfl
        · split
          · rfl
          · next hcon =>
              rcases hbody : filesFallbackBody ctx g id (Option.getD (some imp) "") with ⟨ex, g1, ws⟩
              exact filter_out_fresh resolving _
                (fun hmem => hcon (List.elem_eq_true_of_mem hmem))

/-- C5 counterexample: in the files plugin's Vite `resolveId` hook an absent
importer does not suppress the check — an entry module resolving to a path
matched by a client file rule is denied. -/
theorem c5_entry_counterexample :
    (filesViteResolveId demoCtx demoResolve [] [] "virtual-entry" none none).exit ≠
      HookExit.ret := by
  decide

/-- C5 (amended): when the importer is absent, no specifier or file denial
is evaluated or raised in the Vite specifier hook or in either non-Vite
fallback hook; the Vite file hook, by contrast, guards only against `.html`
importers and can still deny an importer-less (entry) resolution. -/
theorem c5_no_denial_without_importer (ctx : PluginCtx) (g : Graph)
    (resolving : List String) (id : String) (ssr : Option Bool) :
    specifiersViteResolveId ctx g id none ssr = (HookExit.ret, []) ∧
    specifiersFallbackResolveId ctx g id none = (HookExit.ret, []) ∧
    filesFallbackResolveId ctx g resolving id none =
      { exit := HookExit.ret, graph := g, resolving := resolving, warnings := [] } := by
  refine ⟨?_, ?_, ?_⟩
  · simp [specifiersViteResolveId, strTruthy]
  · simp [specifiersFallbackResolveId, strTruthy]
  · simp [filesFallbackResolveId, strTruthy]

/-! ## Claim C3: first-match semantics -/

theorem find?_first {α : Type} (l : List α) (p : α → Bool) (a : α)
    (h : l.find? p = some a) :
    ∃ l₁ l₂, l = l₁ ++ a :: l₂ ∧ p a = true ∧ ∀ q ∈ l₁, p q = false := by
  induction l with
  | nil => simp at h
  | cons x xs ih =>
      by_cases hx : p x = true
      · rw [List.find?_cons_of_pos _ hx] at h
        have hxa : x = a := Option.some_inj.mp h
        subst hxa
        exact ⟨[], xs, rfl, hx, by simp⟩
      · rw [List.find?_cons_of_neg _ (by simpa using hx)] at h
        obtain ⟨l₁, l₂, heq, hpa, hall⟩ := ih h
        refine ⟨x :: l₁, l₂, by rw [heq]; rfl, hpa, ?_⟩
        intro q hq
        rcases List.mem_cons.mp hq with rfl | hq
        · simpa using hx
        · exact hall q hq

/-- C3: `match` returns the first pattern of the list (in declared order)
that matches the candidate — glob semantics for strings, RegExp test for
regexes — and `none` when no pattern matches or no list is configured; in
particular `'a'` against `['a', /a/]` yields the string literal, not the
regex. -/
theorem c3_first_match (glob : String → String → Bool)
    (reTest : RegexPat → String → Bool) (id : String) (ps : List Pattern)
    (r : RegexPat) :
    (∀ q, matchPattern glob reTest id (some ps) = some q →
      ∃ l₁ l₂, ps = l₁ ++ q :: l₂ ∧ patternTest glob reTest id q = true ∧
        ∀ q' ∈ l₁, patternTest glob reTest id q' = false) ∧
    (matchPattern glob reTest id (some ps) = none ↔
      ∀ q ∈ ps, patternTest glob reTest id q = false) ∧
    matchPattern glob reTest id none = none ∧
    (glob "a" "a" = true →
      matchPattern glob reTest "a" (some [Pattern.str "a", Pattern.regex r]) =
        some (Pattern.str "a")) := by
  refine ⟨?_, ?_, rfl, ?_⟩
  · intro q hq
    exact find?_first ps (patternTest glob reTest id) q hq
  · constructor
    · intro h q hq
      have := List.find?_eq_none.mp h q hq
      simpa using this
    · intro h
      apply List.find?_eq_none.mpr
      intro q hq
      simp [h q hq]
  · intro hg
    simp [matchPattern, List.find?_cons, patternTest, hg]

/-- C3 witness: the order-sensitivity example at a concrete glob capability. -/
theorem c3_first_match_witness :
    matchPattern (fun id p => id == p) (fun _ _ => false) "a"
      (some [Pattern.str "a", Pattern.regex { source := "a", flags := "" }]) =
      some (Pattern.str "a") :=
  (c3_first_match (fun id p => id == p) (fun _ _ => false) "a" []
    { source := "a", flags := "" }).2.2.2 (by decide)

/-! ## Claim C4: directive enforcement -/

theorem client_prefix_not_server (t : String)
    (hc : jsStartsWith t "\x27use client\x27" = true ∨
          jsStartsWith t "\"use client\"" = true) :
    jsStartsWith t "\x27use server\x27" = false ∧
    jsStartsWith t "\"use server\"" = false := by
  rcases hc with h | h <;>
  · unfold jsStartsWith at h ⊢
    rw [List.isPrefixOf_iff_prefix] at h
    obtain ⟨u, hu⟩ := h
    constructor <;>
      (rw [← hu]; simp +decide [List.isPrefixOf, List.cons_append])

theorem getDirective_server (code : String)
    (h : jsStartsWith (jsTrimStart code) "\x27use server\x27" = true ∨
         jsStartsWith (jsTrimStart code) "\"use server\"" = true) :
    getDirective code = some Directive.useServer := by
  unfold getDirective
  rcases h with h | h <;> simp [h]

theorem getDirective_client (code : String)
    (h : jsStartsWith (jsTrimStart code) "\x27use client\x27" = true ∨
         jsStartsWith (jsTrimStart code) "\"use client\"" = true) :
    getDirective code = some Directive.useClient := by
  obtain ⟨hs1, hs2⟩ := client_prefix_not_server (jsTrimStart code) h
  simp only [getDirective]
  rw [hs1, hs2]
  rcases h with h | h <;> simp [h]

/-- C4: with directive enforcement on, a transform event is denied exactly
when the module's source carries the `use server` directive and the
execution context is client (for the Vite hook, the per-call `ssr` flag;
for the fallback, the build-level flag); a source whose trimmed text begins
with a quoted `use server` yields that directive, one beginning with a
quoted `use client` yields the client directive (and hence is never
denied), and a source with no recognized directive is never denied. -/
theorem c4_directive_enforcement (ctx : PluginCtx) (g : Graph) (code id : String)
    (ssr : Option Bool) (hdir : ctx.directives = true) :
    (directiveViteTransform ctx g code id ssr ≠ (HookExit.ret, []) ↔
      (getDirective code = some Directive.useServer ∧ ssr.getD false = false)) ∧
    (directiveFallbackTransform ctx g code id ≠ (HookExit.ret, []) ↔
      (getDirective code = some Directive.useServer ∧ ctx.isSsrBuild = false)) ∧
    ((jsStartsWith (jsTrimStart code) "\x27use server\x27" = true ∨
      jsStartsWith (jsTrimStart code) "\"use server\"" = true) →
      getDirective code = some Directive.useServer) ∧
    ((jsStartsWith (jsTrimStart code) "\x27use client\x27" = true ∨
      jsStartsWith (jsTrimStart code) "\"use client\"" = true) →
      getDirective code = some Directive.useClient) := by
  refine ⟨?_, ?_, getDirective_server code, getDirective_client code⟩
  · cases hgd : getDirective code with
    | none => simp [directiveViteTransform, hdir, hgd]
    | some d =>
        cases d with
        | useClient => simp [directiveViteTransform, hdir, hgd]
        | useServer =>
            cases hs : ssr.getD false with
            | false =>
                cases hmode : ctx.mode <;>
                  simp [directiveViteTransform, hdir, hgd, hs, denyResult, hmode]
            | true => simp [directiveViteTransform, hdir, hgd, hs]
  · cases hgd : getDirective code with
    | none => simp [directiveFallbackTransform, hdir, hgd]
    | some d =>
        cases d with
        | useClient => simp [directiveFallbackTransform, hdir, hgd]
        | useServer =>
            cases hs : ctx.isSsrBuild with
            | false =>
                cases hmode : ctx.mode <;>
                  simp [directiveFallbackTransform, hdir, hgd, hs, denyResult, hmode]
            | true => simp [directiveFallbackTransform, hdir, hgd, hs]

/-- C4 witness: a `use server` module is denied by the Vite transform in a
client context, and a `use client` module is classified as the client
directive. -/
theorem c4_directive_enforcement_witness :
    directiveViteTransform demoCtx [] "\x27use server\x27;" "m.ts" (some false) ≠
      (HookExit.ret, []) ∧
    getDirective "  \"use client\" rest" = some Directive.useClient :=
  ⟨(c4_directive_enforcement demoCtx [] "\x27use server\x27;" "m.ts" (some false) rfl).1.mpr
      ⟨by decide, rfl⟩,
   (c4_directive_enforcement demoCtx [] "  \"use client\" rest" "m.ts" none rfl).2.2.2
      (Or.inr (by decide))⟩

/-! ## Claim C7: preset exclusion -/

theorem filterPatterns_str (ps : List Pattern) (s : String) :
    filterPatterns ps [Pattern.str s] = ps.filter (fun p => !(p == Pattern.str s)) := by
  unfold filterPatterns
  rw [if_neg (by simp)]
  apply List.filter_congr
  intro p _
  cases p with
  | str a => by_cases ha : a = s <;> simp [ha, patternMatches]
  | regex r => simp [patternMatches]

theorem filterPatterns_regex (ps : List Pattern) (r : RegexPat) :
    filterPatterns ps [Pattern.regex r] = ps.filter (fun p =>
      match p with
      | Pattern.str _ => true
      | Pattern.regex q => !(q.source == r.source && q.flags == r.flags)) := by
  unfold filterPatterns
  rw [if_neg (by simp)]
  apply List.filter_congr
  intro p _
  cases p with
  | str a => simp [patternMatches]
  | regex q => simp [patternMatches]

/-- C7: `preset({exclude})` with a string pattern removes from the default
client and server specifier lists exactly the string entries equal to it —
every regex and every other string survives, in order — and with a regex
pattern it removes exactly the regexes with identical source and flags,
never any string entry. -/
theorem c7_preset_exclude :
    (∀ s : String,
      (preset { exclude := some [Pattern.str s] }).client.specifiers =
        defaultPreset.client.specifiers.filter (fun p => !(p == Pattern.str s)) ∧
      (preset { exclude := some [Pattern.str s] }).server.specifiers =
        defaultPreset.server.specifiers.filter (fun p => !(p == Pattern.str s))) ∧
    (∀ r : RegexPat,
      (preset { exclude := some [Pattern.regex r] }).client.specifiers =
        defaultPreset.client.specifiers.filter (fun p =>
          match p with
          | Pattern.str _ => true
          | Pattern.regex q => !(q.source == r.source && q.flags == r.flags)) ∧
      (preset { exclude := some [Pattern.regex r] }).server.specifiers =
        defaultPreset.server.specifiers.filter (fun p =>
          match p with
          | Pattern.str _ => true
          | Pattern.regex q => !(q.source == r.source && q.flags == r.flags))) := by
  constructor
  · intro s
    constructor <;>
      simp [preset, filterPatterns_str]
  · intro r
    constructor <;>
      simp [preset, filterPatterns_regex]

/-! ## Claim C8: trace rendering -/

theorem joinNL_cons (a : String) (l : List String) (h : l ≠ []) :
    joinNL (a :: l) = a ++ "\n" ++ joinNL l := by
  cases l with
  | nil => exact absurd rfl h
  | cons b m => rfl

theorem joinNL_concat (l : List String) (x : String) (h : l ≠ []) :
    joinNL (l ++ [x]) = joinNL l ++ "\n" ++ x := by
  induction l with
  | nil => exact absurd rfl h
  | cons a m ih =>
      cases m with
      | nil => rfl
      | cons b m' =>
          have hm : (b :: m') ++ [x] ≠ [] := by simp
          calc joinNL ((a :: b :: m') ++ [x])
              = a ++ "\n" ++ joinNL ((b :: m') ++ [x]) := by
                rw [List.cons_append]
                exact joinNL_cons a ((b :: m') ++ [x]) hm
            _ = a ++ "\n" ++ (joinNL (b :: m') ++ "\n" ++ x) := by
                rw [ih (by simp)]
            _ = joinNL (a :: b :: m') ++ "\n" ++ x := by
                rw [joinNL_cons a (b :: m') (by simp)]
                simp [String.append_assoc]

theorem joinNL_cons_exists (x : String) (l : List String) :
    ∃ middle, joinNL (x :: l) = x ++ middle := by
  cases l with
  | nil => exact ⟨"", by simp [joinNL]⟩
  | cons b m =>
      refine ⟨"\n" ++ joinNL (b :: m), ?_⟩
      rw [joinNL_cons x (b :: m) (by simp)]
      rw [String.append_assoc]

theorem renderEntries_append (rf : String → String → String)
    (rd : String → Option String) (root : String) (n : Nat) :
    ∀ (l₁ l₂ : List TraceEntry) (i : Nat),
      renderEntries rf rd root n i (l₁ ++ l₂) =
        renderEntries rf rd root n i l₁ ++ renderEntries rf rd root n (i + l₁.length) l₂ := by
  intro l₁
  induction l₁ with
  | nil => intro l₂ i; simp [renderEntries]
  | cons e m ih =>
      intro l₂ i
      simp only [List.cons_append, renderEntries, List.length_cons, List.append_eq]
      rw [ih l₂ (i + 1)]
      have : i + 1 + m.length = i + (m.length + 1) := by omega
      rw [this]

/-- C8 counterexample: the rendered trace is NOT listed oldest-to-newest
after the numbered denied module — for the chain `entry.js → c.js →
denied`, line 2 is `c.js` (the newest importer) and the last line is
`entry.js` (the oldest), so the oldest-to-newest reading of the claim is
false on this input. -/
theorem c8_order_counterexample :
    renderTrace idRelative noRead
      [{ file := "entry.js" }, { file := "c.js", specifier := some "denied-module" }]
      "denied" "/proj" =
      "  1. ❌ denied\n  2. c.js\n  3. entry.js (entry)" ∧
    renderTrace idRelative noRead
      [{ file := "entry.js" }, { file := "c.js", specifier := some "denied-module" }]
      "denied" "/proj" ≠
      "  1. ❌ denied\n  2. entry.js (entry)\n  3. c.js" := by
  constructor
  · decide
  · decide

/-- C8 (amended): the rendered diagnostic lists the chain newest-to-oldest:
line 1 (numbered from 1) is the denied module itself, line 2 the immediate
importer, and the final line the entry-point (oldest) entry, which alone is
suffixed ` (entry)`; every trace entry is rendered as a root-relative path
with an optional source-line suffix when the specifier can be located in
that file's text (exercised concretely by the `:2` suffix below). -/
theorem c8_render_order :
    (∀ (rf : String → String → String) (rd : String → Option String)
       (root denied : String) (oldest newest : TraceEntry) (mid : Trace),
      ∃ middle,
        renderTrace rf rd (oldest :: mid ++ [newest]) denied root =
          "  1. ❌ " ++ denied ++ "\n" ++
            entryLine rf rd root (mid.length + 2) 0 newest ++ middle ++ "\n" ++
            entryLine rf rd root (mid.length + 2) (mid.length + 1) oldest) ∧
    renderTrace idRelative oneFileRead
      [{ file := "entry.js" }, { file := "c.js", specifier := some "denied-module" }]
      "denied" "/proj" =
      "  1. ❌ denied\n  2. c.js:2\n  3. entry.js (entry)" := by
  constructor
  · intro rf rd root denied oldest newest mid
    have hrev : (oldest :: mid ++ [newest]).reverse = (newest :: mid.reverse) ++ [oldest] := by
      simp
    have hlen : (oldest :: mid ++ [newest]).reverse.length = mid.length + 2 := by
      simp
    simp only [renderTrace]
    rw [hrev]
    have hents :
        renderEntries rf rd root ((newest :: mid.reverse) ++ [oldest]).length 0
            ((newest :: mid.reverse) ++ [oldest]) =
          entryLine rf rd root (mid.length + 2) 0 newest ::
            (renderEntries rf rd root (mid.length + 2) 1 mid.reverse ++
             [entryLine rf rd root (mid.length + 2) (mid.length + 1) oldest]) := by
      have hL : ((newest :: mid.reverse) ++ [oldest]).length = mid.length + 2 := by simp
      rw [hL]
      rw [List.cons_append]
      simp only [renderEntries]
      rw [renderEntries_append rf rd root (mid.length + 2) mid.reverse [oldest] 1]
      simp only [renderEntries, List.length_reverse]
      have : 1 + mid.length = mid.length + 1 := by omega
      rw [this]
    rw [hents]
    obtain ⟨middle, hmid⟩ := joinNL_cons_exists
      (entryLine rf rd root (mid.length + 2) 0 newest)
      (renderEntries rf rd root (mid.length + 2) 1 mid.reverse)
    refine ⟨middle, ?_⟩
    rw [joinNL_cons _ _ (by simp)]
    rw [← List.cons_append]
    rw [joinNL_concat _ _ (by simp)]
    rw [hmid]
    simp [String.append_assoc]
  · decide

end DenyImports
